import Mathlib

/-!
Verification development for the juxtaprompt LLM streaming core:
the OpenAI provider stream decoder (`src/services/llm/providers/openai-provider.ts`),
the base provider HTTP-error classifier (`src/services/llm/base-llm-provider.ts`),
the provider manager (`src/services/llm/llm-provider-manager.ts`) and the
rate limiter (`src/services/rate-limiting/rate-limiter.ts`), shallowly embedded
in Lean.  Pure functions of the source are translated directly; the async
generators are modelled as functions from the (fully materialised) input
stream to the list of chunks they yield, plus the terminal error they throw,
which is faithful for the single-request sequential semantics the claims are
about.
-/

set_option maxRecDepth 1000000

namespace Juxtaprompt

/-! ## JSON values

Model of the result of JavaScript `JSON.parse`.  JSON numbers are restricted
to integers (every numeric field in the frames this development evaluates is
an integer); a frame whose JSON uses fractional numbers is treated as a parse
failure by the model. -/

inductive Json where
  | null : Json
  | bool : Bool → Json
  | num : Int → Json
  | str : String → Json
  | arr : List Json → Json
  | obj : List (String × Json) → Json

/-- Last-binding-wins field lookup, matching how `JSON.parse` materialises
duplicate keys in a JavaScript object. -/
def lookupField : List (String × Json) → String → Option Json
  | [], _ => none
  | (k', v) :: rest, k =>
    match lookupField rest k with
    | some r => some r
    | none => if k' = k then some v else none

def Json.getField : Json → String → Option Json
  | .obj fs, k => lookupField fs k
  | _, _ => none

/-! ## A small JSON parser (model of the `JSON.parse` builtin)

Recursive-descent with an explicit fuel argument; the fuel passed by
`jsonParse` is generous enough for every concrete frame evaluated in this
development.  Unicode escapes are not modelled (they are treated as parse
failures), which no frame in this development uses. -/

def isWsChar (c : Char) : Bool :=
  c = ' ' || c = '\n' || c = '\t' || c = '\r'

def skipWs : List Char → List Char
  | [] => []
  | c :: cs => if isWsChar c then skipWs cs else c :: cs

def expectChars : List Char → List Char → Option (List Char)
  | [], cs => some cs
  | _ :: _, [] => none
  | e :: es, c :: cs => if c = e then expectChars es cs else none

/-- Parse the body of a JSON string literal, the opening quote already
consumed; returns the decoded characters and the remaining input. -/
def parseStrChars : Nat → List Char → Option (List Char × List Char)
  | 0, _ => none
  | _, [] => none
  | fuel+1, c :: cs =>
    if c = '\"' then some ([], cs)
    else if c = '\\' then
      match cs with
      | [] => none
      | e :: cs2 =>
        let esc : Option Char :=
          if e = '\"' then some '\"'
          else if e = '\\' then some '\\'
          else if e = '/' then some '/'
          else if e = 'n' then some '\n'
          else if e = 't' then some '\t'
          else if e = 'r' then some '\r'
          else if e = 'b' then some (Char.ofNat 8)
          else if e = 'f' then some (Char.ofNat 12)
          else none
        match esc with
        | some ch => (parseStrChars fuel cs2).map (fun p => (ch :: p.1, p.2))
        | none => none
    else (parseStrChars fuel cs).map (fun p => (c :: p.1, p.2))

def takeDigits : List Char → List Char × List Char
  | [] => ([], [])
  | c :: cs =>
    if c.isDigit then
      let p := takeDigits cs
      (c :: p.1, p.2)
    else ([], c :: cs)

def digitsVal (ds : List Char) : Nat :=
  ds.foldl (fun n c => 10 * n + (c.toNat - 48)) 0

/-- Parse an integer JSON number starting at the input head; fractional or
exponent forms are rejected (see the module comment on `Json`). -/
def parseIntNum (cs : List Char) : Option (Int × List Char) :=
  let signed := match cs with
    | c :: rest => if c = '-' then (true, rest) else (false, cs)
    | [] => (false, cs)
  let p := takeDigits signed.2
  if p.1.isEmpty then none
  else
    match p.2 with
    | d :: _ =>
      if d = '.' || d = 'e' || d = 'E' then none
      else some (if signed.1 then -(digitsVal p.1 : Int) else (digitsVal p.1 : Int), p.2)
    | [] => some (if signed.1 then -(digitsVal p.1 : Int) else (digitsVal p.1 : Int), p.2)

/-- Parser mode: a whole value, the items of an array or object right after
the opening bracket, or the comma-separated tail of one.  A single mode-indexed
function keeps the recursion structural in the fuel, so that the kernel can
evaluate it on concrete frames. -/
inductive PMode where
  | value
  | arrItems
  | arrRest
  | objItems
  | objRest
deriving DecidableEq

/-- In the item modes the accumulated items are returned wrapped as
`Json.arr` / `Json.obj`. -/
def parseCore : Nat → PMode → List Char → Option (Json × List Char)
  | 0, _, _ => none
  | fuel+1, .value, cs =>
    match skipWs cs with
    | [] => none
    | c :: rest =>
      if c = Char.ofNat 123 then parseCore fuel .objItems rest
      else if c = '[' then parseCore fuel .arrItems rest
      else if c = '\"' then
        (parseStrChars (rest.length + 1) rest).map (fun p => (Json.str (String.mk p.1), p.2))
      else if c = 't' then
        (expectChars ['r', 'u', 'e'] rest).map (fun r => (Json.bool true, r))
      else if c = 'f' then
        (expectChars ['a', 'l', 's', 'e'] rest).map (fun r => (Json.bool false, r))
      else if c = 'n' then
        (expectChars ['u', 'l', 'l'] rest).map (fun r => (Json.null, r))
      else if c = '-' || c.isDigit then
        (parseIntNum (c :: rest)).map (fun p => (Json.num p.1, p.2))
      else none
  | fuel+1, .arrItems, cs =>
    match skipWs cs with
    | [] => none
    | c :: rest =>
      if c = ']' then some (Json.arr [], rest)
      else parseCore fuel .arrRest (c :: rest)
  | fuel+1, .arrRest, cs =>
    match parseCore fuel .value cs with
    | none => none
    | some (j, cs2) =>
      match skipWs cs2 with
      | ',' :: cs3 =>
        match parseCore fuel .arrRest cs3 with
        | some (Json.arr js, r) => some (Json.arr (j :: js), r)
        | _ => none
      | ']' :: cs3 => some (Json.arr [j], cs3)
      | _ => none
  | fuel+1, .objItems, cs =>
    match skipWs cs with
    | [] => none
    | c :: rest =>
      if c = Char.ofNat 125 then some (Json.obj [], rest)
      else parseCore fuel .objRest (c :: rest)
  | fuel+1, .objRest, cs =>
    match skipWs cs with
    | '\"' :: rest =>
      match parseStrChars (rest.length + 1) rest with
      | none => none
      | some (key, cs2) =>
        match skipWs cs2 with
        | ':' :: cs3 =>
          match parseCore fuel .value cs3 with
          | none => none
          | some (v, cs4) =>
            match skipWs cs4 with
            | ',' :: cs5 =>
              match parseCore fuel .objRest cs5 with
              | some (Json.obj fs, r) => some (Json.obj ((String.mk key, v) :: fs), r)
              | _ => none
            | c :: cs5 => if c = Char.ofNat 125 then some (Json.obj [(String.mk key, v)], cs5) else none
            | [] => none
        | _ => none
    | _ => none

/-- Model of `JSON.parse` on a whole string: parse one JSON value and require
only trailing whitespace after it.  The fuel bound is generous: every
recursive step of `parseCore` consumes input or switches mode at most a
constant number of times per character. -/
def jsonParse (s : String) : Option Json :=
  match parseCore (4 * s.length + 4) .value s.data with
  | some (j, rest) => if skipWs rest = [] then some j else none
  | none => none

/-! ## OpenAI stream-chunk schema (`src/schemas/llm-schemas.ts`, `OpenAIStreamChunkSchema`)

The zod schema is embedded as a checker from `Json` to the validated record;
`none` stands for a failed `safeParse` (the error details, which the code only
logs, are not modelled). -/

structure OpenAIDelta where
  content : Option String
  role : Option String
deriving DecidableEq

structure OpenAIChoice where
  index : Int
  delta : OpenAIDelta
  finish_reason : Option String
deriving DecidableEq

structure OpenAIStreamChunk where
  id : String
  object : String
  created : Int
  model : String
  choices : List OpenAIChoice
deriving DecidableEq

def asString : Json → Option String
  | .str s => some s
  | _ => none

def asInt : Json → Option Int
  | .num n => some n
  | _ => none

def asArray : Json → Option (List Json)
  | .arr l => some l
  | _ => none

/-- Field declared `z.string().optional()`: an absent field is accepted as
`none`; a present field must be a string. -/
def optStringField (j : Json) (k : String) : Option (Option String) :=
  match j.getField k with
  | none => some none
  | some v => (asString v).map some

/-- Field declared `z.string().nullable()`: the field is required and its
value must be a string or JSON `null`. -/
def nullableStringField (j : Json) (k : String) : Option (Option String) :=
  match j.getField k with
  | none => none
  | some .null => some none
  | some v => (asString v).map some

def reqStringField (j : Json) (k : String) : Option String :=
  j.getField k >>= asString

def reqIntField (j : Json) (k : String) : Option Int :=
  j.getField k >>= asInt

def validateDelta (j : Json) : Option OpenAIDelta :=
  match j with
  | .obj _ => do
    let c ← optStringField j ("content")
    let r ← optStringField j ("role")
    some ⟨c, r⟩
  | _ => none

def validateChoice (j : Json) : Option OpenAIChoice :=
  match j with
  | .obj _ => do
    let i ← reqIntField j ("index")
    let dj ← j.getField ("delta")
    let d ← validateDelta dj
    let fr ← nullableStringField j ("finish_reason")
    some ⟨i, d, fr⟩
  | _ => none

/-- Embedding of `validateOpenAIResponse` (zod `safeParse` against
`OpenAIStreamChunkSchema`). -/
def validateOpenAIResponse (j : Json) : Option OpenAIStreamChunk :=
  match j with
  | .obj _ => do
    let i ← reqStringField j ("id")
    let ob ← reqStringField j ("object")
    if ob = ("chat.completion.chunk") then do
      let cr ← reqIntField j ("created")
      let md ← reqStringField j ("model")
      let cj ← j.getField ("choices")
      let ca ← asArray cj
      let cs ← ca.mapM validateChoice
      some ⟨i, ob, cr, md, cs⟩
    else none
  | _ => none

/-! ## Normalized stream chunks and errors (`src/types/llm.ts`) -/

structure LLMStreamChunk where
  requestId : String
  content : String
  isComplete : Bool
  tokenCount : Option Int
deriving DecidableEq

structure LLMError where
  code : String
  message : String
  retryable : Bool
  statusCode : Option Int
deriving DecidableEq

/-! ## OpenAI provider frame parser
(`src/services/llm/providers/openai-provider.ts`, `parseStreamChunk`) -/

/-- Reading of `(parsed as any).usage?.total_tokens` guarded by JavaScript
truthiness: only a present, non-zero number passes the `&&` chain and
contributes a `tokenCount`. -/
def usageTotalTokens (parsed : Json) : Option Int :=
  match parsed.getField ("usage") with
  | some u =>
    match u.getField ("total_tokens") with
    | some (Json.num n) => if n = 0 then none else some n
    | _ => none
  | none => none

/-- Embedding of `OpenAIProvider.parseStreamChunk`: JSON-parse the frame
payload, validate it against the schema, take the first choice, and build the
normalized chunk.  Every failure path of the source returns `null` (a thrown
`JSON.parse` error is caught inside the method), so the model is total. -/
def openaiParseStreamChunk (data : String) (requestId : String) : Option LLMStreamChunk :=
  match jsonParse data with
  | none => none
  | some parsed =>
    match validateOpenAIResponse parsed with
    | none => none
    | some chunk =>
      match chunk.choices with
      | [] => none
      | choice :: _ =>
        let content := choice.delta.content.getD ("")
        let isComplete := choice.finish_reason.isSome
        some { requestId := requestId
               content := content
               isComplete := isComplete
               tokenCount := if isComplete then usageTotalTokens parsed else none }

/-! ## OpenAI SSE stream processing
(`src/services/llm/providers/openai-provider.ts`, `processSSEStream`)

The async generator is modelled as a function from the sequence of reader
events to the list of chunks it yields plus the terminal error it throws
(if any) after those chunks. -/

/-- Model of JavaScript `String.prototype.trim` (the whitespace set is the
one occurring in SSE streams), implemented over the character list so that
the kernel can evaluate it. -/
def strTrim (s : String) : String :=
  String.mk (((s.data.dropWhile isWsChar).reverse.dropWhile isWsChar).reverse)

/-- Model of `String.prototype.startsWith`. -/
def strStartsWith (s p : String) : Bool :=
  p.data.isPrefixOf s.data

/-- Model of `String.prototype.slice(n)` for a nonnegative start index. -/
def strDrop (s : String) (n : Nat) : String :=
  String.mk (s.data.drop n)

/-- Model of `String.prototype.split` on the newline character: the list of
lines, with an empty final line when the text ends in a newline. -/
def splitOnNewline : List Char → List (List Char)
  | [] => [[]]
  | c :: cs =>
    let r := splitOnNewline cs
    if c = '\n' then [] :: r
    else
      match r with
      | l :: ls => (c :: l) :: ls
      | [] => [[c]]

def splitLines (s : String) : List String :=
  (splitOnNewline s.data).map String.mk

/-- The synthesized terminal chunk: yielded by the provider on the `[DONE]`
sentinel and by the manager when it observes cancellation — both build the
literal `(requestId, content: empty, isComplete: true)` object. -/
def emptyTerminalChunk (requestId : String) : LLMStreamChunk :=
  { requestId := requestId, content := "", isComplete := true, tokenCount := none }

/-- One event of the HTTP response-body reader: a successfully decoded text
segment, or a read rejection (network failure), which the generator's catch
block converts into a thrown parsing error. -/
inductive ReadEvent where
  | segment (text : String)
  | fault (message : String)
deriving DecidableEq

/-- Embedding of `BaseLLMProvider.handleParsingError` (code `PARSING_ERROR`,
non-retryable; the opaque `details` payload is not modelled). -/
def parsingError (message : String) : LLMError :=
  { code := "PARSING_ERROR", message := message, retryable := false, statusCode := none }

/-- The `NO_RESPONSE_BODY` error the OpenAI `processSSEStream` throws when the
response has no readable body. -/
def noResponseBodyError : LLMError :=
  { code := "NO_RESPONSE_BODY", message := "No response body received from OpenAI"
    retryable := false, statusCode := none }

/-- Inner loop of `OpenAIProvider.processSSEStream` over the complete lines
extracted from one read: trim, recognise the `data: ` prefix, handle the
`[DONE]` sentinel, parse and yield a chunk, and stop (generator `return`)
after yielding any chunk with `isComplete`.  The Bool records whether the
generator returned early. -/
def openaiProcessLineList (requestId : String) : List String → List LLMStreamChunk × Bool
  | [] => ([], false)
  | line :: rest =>
    let trimmedLine := strTrim line
    if strStartsWith trimmedLine ("data: ") then
      let data := strDrop trimmedLine 6
      if data = ("[DONE]") then ([emptyTerminalChunk requestId], true)
      else
        match openaiParseStreamChunk data requestId with
        | some chunk =>
          if chunk.isComplete then ([chunk], true)
          else
            let p := openaiProcessLineList requestId rest
            (chunk :: p.1, p.2)
        | none => openaiProcessLineList requestId rest
    else openaiProcessLineList requestId rest

/-- Outer read loop of `OpenAIProvider.processSSEStream`: append each decoded
segment to the carry buffer, split on newline, keep the final (possibly
partial) line as the next buffer, and process the complete lines.  A faulting
read is caught and rethrown as a parsing error; reaching the end of the
events without a sentinel ends the stream with whatever was yielded (the
unfinished buffer is discarded). -/
def openaiProcessSegs (requestId : String) (buffer : String) :
    List ReadEvent → List LLMStreamChunk × Option LLMError
  | [] => ([], none)
  | .fault msg :: _ => ([], some (parsingError msg))
  | .segment seg :: rest =>
    let combined := String.mk (buffer.data ++ seg.data)
    let parts := splitLines combined
    let newBuffer := (parts.getLast?).getD ("")
    let p := openaiProcessLineList requestId parts.dropLast
    if p.2 then (p.1, none)
    else
      let q := openaiProcessSegs requestId newBuffer rest
      (p.1 ++ q.1, q.2)

/-- Embedding of `OpenAIProvider.processSSEStream`: a missing response body
throws `NO_RESPONSE_BODY` before any chunk; otherwise the read loop runs with
an empty initial buffer. -/
def openaiProcessSSEStream (requestId : String) (body : Option (List ReadEvent)) :
    List LLMStreamChunk × Option LLMError :=
  match body with
  | none => ([], some noResponseBodyError)
  | some events => openaiProcessSegs requestId ("") events

/-! ## Configuration validation
(`src/schemas/llm-schemas.ts` `LLMConfigSchema` and
`OpenAIProvider.validateConfig`) -/

structure LLMConfig where
  provider : String
  apiKey : String
  baseUrl : String
  model : String
  temperature : Rat
  maxTokens : Int
  topP : Rat
  frequencyPenalty : Rat
  presencePenalty : Rat
  systemMessage : String
deriving DecidableEq

/-- Modelled builtin: zod's `z.string().url()` check, approximated by the
scheme prefix; adequate for every URL this development evaluates. -/
def looksLikeUrl (s : String) : Bool :=
  strStartsWith s ("http://") || strStartsWith s ("https://")

/-- Embedding of `validateLLMConfig` (`LLMConfigSchema.safeParse`) on an
already-shaped configuration record: the enum, emptiness and numeric-bound
checks of the schema. -/
def validateLLMConfig (c : LLMConfig) : Bool :=
  (c.provider = ("openai") || c.provider = ("anthropic") || c.provider = ("gemini")) &&
  decide (1 ≤ c.apiKey.length) &&
  looksLikeUrl c.baseUrl &&
  decide (1 ≤ c.model.length) &&
  decide (0 ≤ c.temperature) && decide (c.temperature ≤ 2) &&
  decide (1 ≤ c.maxTokens) && decide (c.maxTokens ≤ 32000) &&
  decide (0 ≤ c.topP) && decide (c.topP ≤ 1) &&
  decide (-2 ≤ c.frequencyPenalty) && decide (c.frequencyPenalty ≤ 2) &&
  decide (-2 ≤ c.presencePenalty) && decide (c.presencePenalty ≤ 2)

def openaiSupportedModels : List String :=
  [("gpt-4o"), ("gpt-4o-mini"), ("gpt-4-turbo"), ("gpt-4"), ("gpt-3.5-turbo")]

/-- Embedding of `OpenAIProvider.validateConfig`: the base schema validation,
then the provider tag, the `sk-` key-prefix check and the supported-model
allow-list.  The base-URL comparison of the source only logs a warning and
never changes the result, so it is not modelled. -/
def openaiValidateConfig (c : LLMConfig) : Bool :=
  validateLLMConfig c &&
  c.provider = ("openai") &&
  strStartsWith c.apiKey ("sk-") &&
  openaiSupportedModels.contains c.model

/-! ## Provider manager
(`src/services/llm/llm-provider-manager.ts`) -/

def providerNotFoundError (name : String) : LLMError :=
  { code := "PROVIDER_NOT_FOUND"
    message := "Provider " ++ name ++ " is not registered"
    retryable := false, statusCode := none }

def invalidConfigError : LLMError :=
  { code := "INVALID_CONFIG", message := "Invalid configuration"
    retryable := false, statusCode := none }

/-- Whether the abort signal is observed at the loop boundary where provider
chunk `i` (0-indexed) has just arrived: `cancelAt = some k` means
`cancelRequest` ran after the manager had forwarded `k` chunks. -/
def abortedAt (cancelAt : Option Nat) (i : Nat) : Bool :=
  match cancelAt with
  | some k => decide (k ≤ i)
  | none => false

/-- Consumption loop of `LLMProviderManager.sendStreamingRequest`: each
arriving provider chunk is forwarded unless the abort signal is observed at
its boundary, in which case one synthesized terminal chunk is yielded and the
generator returns — so a provider error pending after the remaining chunks is
never reached. -/
def managerLoop (requestId : String) (cancelAt : Option Nat) :
    Nat → List LLMStreamChunk → Option LLMError → List LLMStreamChunk × Option LLMError
  | _, [], err => ([], err)
  | i, c :: rest, err =>
    if abortedAt cancelAt i then ([emptyTerminalChunk requestId], none)
    else
      let p := managerLoop requestId cancelAt (i + 1) rest err
      (c :: p.1, p.2)

/-- Embedding of `LLMProviderManager.sendStreamingRequest` with the OpenAI
provider registered (as `src/services/llm/index.ts` does): the provider
validates the configuration, the HTTP response body is the stream input, and
the manager's loop filters the produced chunks for cancellation. -/
def sendStreamingRequestOpenAI (cfg : LLMConfig) (requestId : String)
    (body : Option (List ReadEvent)) (cancelAt : Option Nat) :
    List LLMStreamChunk × Option LLMError :=
  if openaiValidateConfig cfg = false then ([], some invalidConfigError)
  else
    let produced := openaiProcessSSEStream requestId body
    managerLoop requestId cancelAt 0 produced.1 produced.2

/-- Embedding of `LLMProviderManager.cancelRequest` over the registry of
active request ids (the keys of the `activeRequests` map): signal and remove
if present, report whether an entry was found. -/
def cancelRequest (activeIds : List String) (requestId : String) : Bool × List String :=
  if requestId ∈ activeIds then (true, activeIds.erase requestId) else (false, activeIds)

/-! ## HTTP-error classifiers
(`BaseLLMProvider.handleHTTPError` and `OpenAIProvider.handleHTTPError`; the
asynchronous extraction of a message from the error body only refines the
human-readable message, which is a parameter here) -/

def baseHandleHTTPError (status : Int) (message : String) : LLMError :=
  { code := "HTTP_" ++ toString status
    message := message
    retryable := decide (500 ≤ status) || decide (status = 429)
    statusCode := some status }

def openaiHandleHTTPError (status : Int) (message : String) : LLMError :=
  { code := "OPENAI_HTTP_" ++ toString status
    message := message
    retryable := decide (500 ≤ status) || decide (status = 429) || decide (status = 408)
    statusCode := some status }

/-! ## Rate limiter (`src/services/rate-limiting/rate-limiter.ts`)

Counters and timestamps are JavaScript numbers holding integer values; they
are modelled as `Int` so that nonnegativity (claim C10) is a real property
and not an artifact of the embedding.  `Date.now()` is passed explicitly as
the `now` argument of each operation.  The `resetTimer` (a scheduled call to
`resetIfNeeded`, which is also run inline by every public read) only
re-triggers the same wall-clock check and is not part of the state. -/

structure RateLimitConfig where
  maxRequestsPerMinute : Int
  maxConcurrentRequests : Int
  backoffMultiplier : Int
  maxBackoffMs : Int
  retryAttempts : Int
deriving DecidableEq

/-- `DEFAULT_RATE_LIMIT_CONFIG` from `src/types/app.ts`. -/
def DEFAULT_RATE_LIMIT_CONFIG : RateLimitConfig :=
  { maxRequestsPerMinute := 60, maxConcurrentRequests := 5
    backoffMultiplier := 2, maxBackoffMs := 30000, retryAttempts := 3 }

structure RateLimitState where
  requestCount : Int
  lastResetTime : Int
  activeRequests : Int
  backoffUntil : Int
deriving DecidableEq

/-- The state set up by the `RateLimiter` constructor (and by `reset`). -/
def rateLimiterInit (now : Int) : RateLimitState :=
  { requestCount := 0, lastResetTime := now, activeRequests := 0, backoffUntil := 0 }

/-- Embedding of the private `resetIfNeeded`: clear the window counter when
at least one minute has elapsed since the last reset. -/
def resetIfNeeded (now : Int) (s : RateLimitState) : RateLimitState :=
  if 60000 ≤ now - s.lastResetTime then
    { s with requestCount := 0, lastResetTime := now }
  else s

def isInBackoff (now : Int) (s : RateLimitState) : Bool :=
  decide (now < s.backoffUntil)

/-- Embedding of `canMakeRequest`: runs `resetIfNeeded` as a side effect and
then checks backoff, the concurrency ceiling and the per-minute ceiling; the
updated state is returned alongside the answer. -/
def canMakeRequest (cfg : RateLimitConfig) (now : Int) (s : RateLimitState) :
    Bool × RateLimitState :=
  let s1 := resetIfNeeded now s
  let ok :=
    !(isInBackoff now s1) &&
    !(decide (cfg.maxConcurrentRequests ≤ s1.activeRequests)) &&
    !(decide (cfg.maxRequestsPerMinute ≤ s1.requestCount))
  (ok, s1)

/-- Embedding of `acquireRequest`: re-check `canMakeRequest` and, when it
passes, bump the window counter and the active counter in the same
synchronous step. -/
def acquireRequest (cfg : RateLimitConfig) (now : Int) (s : RateLimitState) :
    Bool × RateLimitState :=
  let p := canMakeRequest cfg now s
  if p.1 then
    (true, { p.2 with requestCount := p.2.requestCount + 1
                      activeRequests := p.2.activeRequests + 1 })
  else (false, p.2)

/-- Embedding of `releaseRequest`: decrement the active counter, floored at
zero. -/
def releaseRequest (s : RateLimitState) : RateLimitState :=
  if 0 < s.activeRequests then { s with activeRequests := s.activeRequests - 1 }
  else s

/-- Embedding of the private `calculateBackoffTime`:
`min(1000 * backoffMultiplier ^ requestCount, maxBackoffMs)`.  The source
computes the power with `Math.pow` on floats; with the integral multiplier of
every shipped configuration the float result is exact until it exceeds any
representable cap, so the integer computation agrees on the capped value.
The `toNat` clamp mirrors that a negative count never occurs (claim C10). -/
def calculateBackoffTime (cfg : RateLimitConfig) (s : RateLimitState) : Int :=
  min (1000 * cfg.backoffMultiplier ^ s.requestCount.toNat) cfg.maxBackoffMs

/-- Embedding of `handleRateLimitResponse`.  The source selects the backoff
with `retryAfterSeconds ? retryAfterSeconds * 1000 : this.calculateBackoffTime()`,
so an absent value and the (falsy) value 0 both fall back to the computed
exponential delay. -/
def handleRateLimitResponse (cfg : RateLimitConfig) (retryAfterSeconds : Option Int)
    (now : Int) (s : RateLimitState) : RateLimitState :=
  let backoffMs :=
    match retryAfterSeconds with
    | some v => if v = 0 then calculateBackoffTime cfg s else v * 1000
    | none => calculateBackoffTime cfg s
  { s with backoffUntil := now + backoffMs }

/-- Embedding of `handleSuccessfulRequest`: clear the backoff window. -/
def handleSuccessfulRequest (s : RateLimitState) : RateLimitState :=
  { s with backoffUntil := 0 }

/-- Embedding of `reset`: restore the constructor state at the current time. -/
def rateLimiterReset (now : Int) : RateLimitState :=
  rateLimiterInit now

/-- One completed request: a successful (or failed) `acquireRequest`
immediately followed by the `releaseRequest` of the caller's finally block. -/
def acquireRelease (cfg : RateLimitConfig) (now : Int) (s : RateLimitState) :
    RateLimitState :=
  releaseRequest (acquireRequest cfg now s).2

/-! ## Derived notions used by the theorems -/

/-- A chunk sequence in which a terminal chunk (`isComplete = true`) may
occur only as the final element. -/
def untilTerminal : List LLMStreamChunk → Bool
  | [] => true
  | [_] => true
  | c :: rest => !c.isComplete && untilTerminal rest

/-- A chunk sequence with no terminal chunk at all. -/
def noTerminal (l : List LLMStreamChunk) : Bool :=
  l.all (fun c => !c.isComplete)

/-- A concrete configuration accepted by the OpenAI `validateConfig`. -/
def cfgA : LLMConfig :=
  { provider := "openai", apiKey := "sk-test-key"
    baseUrl := "https://api.openai.com/v1", model := "gpt-4o"
    temperature := 1, maxTokens := 256, topP := 1
    frequencyPenalty := 0, presencePenalty := 0, systemMessage := "" }

/-! # Theorems -/

/-- Claim C8, counterexample: at status 408 — a non-ok response — the base
HTTP-error classifier produces `retryable = false`, so the claimed
equivalence (retryable iff 5xx, 429 or 408) fails there. -/
theorem http408_base_counterexample :
    ¬ ((baseHandleHTTPError 408 "Request Timeout").retryable = true ↔
        (500 ≤ (408 : Int) ∨ (408 : Int) = 429 ∨ (408 : Int) = 408)) := by
  decide

/-- Claim C8, amended: the OpenAI provider's HTTP-error classifier sets
`retryable` iff the status is 5xx, 429 or 408; the base classifier sets it
iff the status is 5xx or 429 — status 408 is not retryable there. -/
theorem http_retryable_iff (status : Int) (message : String) :
    ((openaiHandleHTTPError status message).retryable = true ↔
      (500 ≤ status ∨ status = 429 ∨ status = 408)) ∧
    ((baseHandleHTTPError status message).retryable = true ↔
      (500 ≤ status ∨ status = 429)) := by
  constructor <;>
    simp [openaiHandleHTTPError, baseHandleHTTPError, Bool.or_eq_true,
      decide_eq_true_eq, or_assoc]

/-- Claim C9: `handleRateLimitResponse` invoked with retry-after 0 behaves
exactly as with no retry-after at all — `backoffUntil` becomes `now` plus the
computed exponential delay, not `now + 0`. -/
theorem retryAfter_zero_falls_back (cfg : RateLimitConfig) (now : Int)
    (s : RateLimitState) :
    handleRateLimitResponse cfg (some 0) now s = handleRateLimitResponse cfg none now s ∧
    (handleRateLimitResponse cfg (some 0) now s).backoffUntil
      = now + min (1000 * cfg.backoffMultiplier ^ s.requestCount.toNat) cfg.maxBackoffMs := by
  constructor <;> simp [handleRateLimitResponse, calculateBackoffTime]

/-- Claim C4, counterexample: with the default configuration, a 429 with no
retry-after arriving after the one request of the current window sets a
backoff of 2000 ms (base delay times multiplier^1), not the claimed
1000 ms base delay. -/
theorem backoff_base_delay_counterexample :
    (handleRateLimitResponse DEFAULT_RATE_LIMIT_CONFIG none 0
        (acquireRequest DEFAULT_RATE_LIMIT_CONFIG 0 (rateLimiterInit 0)).2).backoffUntil = 2000 ∧
    (2000 : Int) ≠ 0 + 1000 := by
  decide

/-- Claim C4, amended: with no retry-after the backoff set is
`now + min(1000 · backoffMultiplier ^ requestCount, maxBackoffMs)`; it equals
the 1000 ms base delay exactly in the states whose window request count is
zero (whenever the cap admits 1000 ms). -/
theorem backoff_exponential_formula (cfg : RateLimitConfig) (now : Int)
    (s : RateLimitState) :
    (handleRateLimitResponse cfg none now s).backoffUntil
      = now + min (1000 * cfg.backoffMultiplier ^ s.requestCount.toNat) cfg.maxBackoffMs ∧
    (s.requestCount = 0 → 1000 ≤ cfg.maxBackoffMs →
      (handleRateLimitResponse cfg none now s).backoffUntil = now + 1000) := by
  constructor
  · simp [handleRateLimitResponse, calculateBackoffTime]
  · intro h0 hcap
    simp [handleRateLimitResponse, calculateBackoffTime, h0, min_eq_left hcap]

/-- Witness for the amended claim C4 at a concrete fresh limiter. -/
theorem backoff_exponential_formula_witness :
    (handleRateLimitResponse DEFAULT_RATE_LIMIT_CONFIG none 5
        (rateLimiterInit 0)).backoffUntil = 5 + 1000 :=
  (backoff_exponential_formula DEFAULT_RATE_LIMIT_CONFIG 5 (rateLimiterInit 0)).2
    (by decide) (by decide)

/-- Claim C10: both counters are nonnegative initially and stay nonnegative
under every public operation, and `releaseRequest` on a state with no active
requests leaves the state unchanged. -/
theorem rateLimiter_counters_nonneg (cfg : RateLimitConfig) (now : Int)
    (s : RateLimitState) (retryAfter : Option Int)
    (h : 0 ≤ s.requestCount ∧ 0 ≤ s.activeRequests) :
    (0 ≤ (rateLimiterInit now).requestCount ∧ 0 ≤ (rateLimiterInit now).activeRequests) ∧
    (0 ≤ (canMakeRequest cfg now s).2.requestCount ∧
      0 ≤ (canMakeRequest cfg now s).2.activeRequests) ∧
    (0 ≤ (acquireRequest cfg now s).2.requestCount ∧
      0 ≤ (acquireRequest cfg now s).2.activeRequests) ∧
    (0 ≤ (releaseRequest s).requestCount ∧ 0 ≤ (releaseRequest s).activeRequests) ∧
    (0 ≤ (handleRateLimitResponse cfg retryAfter now s).requestCount ∧
      0 ≤ (handleRateLimitResponse cfg retryAfter now s).activeRequests) ∧
    (0 ≤ (handleSuccessfulRequest s).requestCount ∧
      0 ≤ (handleSuccessfulRequest s).activeRequests) ∧
    (0 ≤ (rateLimiterReset now).requestCount ∧ 0 ≤ (rateLimiterReset now).activeRequests) ∧
    (s.activeRequests = 0 → releaseRequest s = s) := by
  obtain ⟨h1, h2⟩ := h
  refine ⟨⟨le_refl 0, le_refl 0⟩, ?_, ?_, ?_, ?_, ?_, ⟨le_refl 0, le_refl 0⟩, ?_⟩
  · unfold canMakeRequest resetIfNeeded
    dsimp only
    split <;> constructor <;> dsimp only <;> omega
  · unfold acquireRequest canMakeRequest resetIfNeeded
    dsimp only
    split <;> split <;> constructor <;> dsimp only <;> omega
  · unfold releaseRequest
    split <;> constructor <;> dsimp only <;> omega
  · unfold handleRateLimitResponse
    exact ⟨h1, h2⟩
  · exact ⟨h1, h2⟩
  · intro hz
    unfold releaseRequest
    rw [hz]
    simp

/-- Witness for claim C10 at a concrete state. -/
theorem rateLimiter_counters_nonneg_witness :
    0 ≤ (releaseRequest (rateLimiterInit 0)).activeRequests ∧
    releaseRequest (rateLimiterInit 0) = rateLimiterInit 0 := by
  have h := rateLimiter_counters_nonneg DEFAULT_RATE_LIMIT_CONFIG 0 (rateLimiterInit 0)
    none (by decide)
  exact ⟨h.2.2.2.1.2, h.2.2.2.2.2.2.2 (by decide)⟩

/-- Claim C5: on a registry holding the active id, the first `cancelRequest`
returns true and removes the entry; any further call on the same id returns
false and leaves the registry unchanged. -/
theorem cancelRequest_idempotent (activeIds : List String) (requestId : String)
    (hnd : activeIds.Nodup) (hmem : requestId ∈ activeIds) :
    (cancelRequest activeIds requestId).1 = true ∧
    requestId ∉ (cancelRequest activeIds requestId).2 ∧
    cancelRequest (cancelRequest activeIds requestId).2 requestId
      = (false, (cancelRequest activeIds requestId).2) := by
  have hniel : requestId ∉ activeIds.erase requestId := by
    intro hcontra
    exact ((hnd.mem_erase_iff).mp hcontra).1 rfl
  refine ⟨?_, ?_, ?_⟩
  · simp [cancelRequest, hmem]
  · simpa [cancelRequest, hmem] using hniel
  · simp [cancelRequest, hmem, hniel]

/-- Witness for claim C5 on a concrete two-entry registry. -/
theorem cancelRequest_idempotent_witness :
    (cancelRequest [("openai_1"), ("openai_2")] ("openai_1")).1 = true ∧
    ("openai_1") ∉ (cancelRequest [("openai_1"), ("openai_2")] ("openai_1")).2 ∧
    cancelRequest (cancelRequest [("openai_1"), ("openai_2")] ("openai_1")).2 ("openai_1")
      = (false, (cancelRequest [("openai_1"), ("openai_2")] ("openai_1")).2) :=
  cancelRequest_idempotent [("openai_1"), ("openai_2")] ("openai_1")
    (by decide) (by decide)

/-- The manager consumption loop started at index `i`, with the abort signal
raised before the boundary of absolute chunk index `k`, forwards exactly the
chunks before `k` and then one synthesized terminal chunk; a pending provider
error is never reached. -/
theorem managerLoop_cancel (requestId : String) (err : Option LLMError)
    (chunks : List LLMStreamChunk) :
    ∀ i k : Nat, i ≤ k → k - i < chunks.length →
      managerLoop requestId (some k) i chunks err
        = (chunks.take (k - i) ++ [emptyTerminalChunk requestId], none) := by
  induction chunks with
  | nil =>
    intro i k _ h
    simp at h
  | cons c rest ih =>
    intro i k hik h
    by_cases hki : k ≤ i
    · have hk : k = i := le_antisymm hki hik
      subst hk
      simp [managerLoop, abortedAt]
    · have hlt : i < k := lt_of_not_ge hki
      have habort : abortedAt (some k) i = false := by
        simp [abortedAt]
        omega
      have hrec := ih (i + 1) k (by omega) (by simp at h; omega)
      simp only [managerLoop, habort, Bool.false_eq_true, if_false, hrec]
      have hsub : k - i = (k - (i + 1)) + 1 := by omega
      rw [hsub, List.take_succ_cons]
      simp [List.cons_append]

/-- Claim C7: when cancellation is observed while the adapter still has
chunks to deliver, the caller-facing iterator yields exactly one more chunk —
the synthesized empty terminal — and ends; no adapter-produced chunk at or
beyond the cancellation point is forwarded, and no pending provider error
surfaces, regardless of what the adapter was still producing. -/
theorem cancel_midstream_one_more_chunk (requestId : String)
    (chunks : List LLMStreamChunk) (err : Option LLMError) (k : Nat)
    (hk : k < chunks.length) :
    managerLoop requestId (some k) 0 chunks err
      = (chunks.take k ++ [emptyTerminalChunk requestId], none) ∧
    (managerLoop requestId (some k) 0 chunks err).1.length = k + 1 := by
  have h := managerLoop_cancel requestId err chunks 0 k (Nat.zero_le k) (by simpa using hk)
  refine ⟨by simpa using h, ?_⟩
  rw [show k - 0 = k from rfl] at h
  rw [h]
  simp [List.length_take, Nat.min_eq_left (le_of_lt hk)]

/-- Witness for claim C7: cancellation observed after one forwarded chunk of
a three-chunk adapter stream that would also have thrown afterwards. -/
theorem cancel_midstream_one_more_chunk_witness :
    managerLoop ("r") (some 1) 0
      [⟨("r"), ("a"), false, none⟩, ⟨("r"), ("b"), false, none⟩, ⟨("r"), ("c"), true, none⟩]
      (some (parsingError ("boom")))
      = ([⟨("r"), ("a"), false, none⟩, emptyTerminalChunk ("r")], none) := by
  have h := cancel_midstream_one_more_chunk ("r")
    [⟨("r"), ("a"), false, none⟩, ⟨("r"), ("b"), false, none⟩, ⟨("r"), ("c"), true, none⟩]
    (some (parsingError ("boom"))) 1 (by decide)
  simpa using h.1

/-- Claim C2, counterexample: the exact frame pair of the claim — the
abbreviated OpenAI delta frame followed by the `[DONE]` sentinel — yields
only the synthesized terminal chunk, because the first frame lacks the
`id`, `object`, `created`, `model` and `choices[].index` fields that
`OpenAIStreamChunkSchema` requires, so schema validation rejects it and the
frame is skipped. -/
theorem scenarioA_abbreviated_frame_counterexample :
    openaiProcessSSEStream ("r")
        (some [ReadEvent.segment
          ("data: \x7b\"choices\":[\x7b\"delta\":\x7b\"content\":\"Hi\"\x7d,\"finish_reason\":null\x7d]\x7d\ndata: [DONE]\n")])
      = ([emptyTerminalChunk ("r")], none) ∧
    [emptyTerminalChunk ("r")]
      ≠ [⟨("r"), ("Hi"), false, none⟩, emptyTerminalChunk ("r")] := by
  constructor
  · decide
  · decide

/-- Claim C2, amended: with the schema-required fields present on the content
frame, the frame pair yields exactly the claimed two chunks, in order:
the content chunk (content Hi, isComplete false) and then the synthesized
terminal chunk (empty content, isComplete true). -/
theorem scenarioA_full_frame :
    openaiProcessSSEStream ("r")
        (some [ReadEvent.segment
          ("data: \x7b\"id\":\"c1\",\"object\":\"chat.completion.chunk\",\"created\":1,\"model\":\"gpt-4o\",\"choices\":[\x7b\"index\":0,\"delta\":\x7b\"content\":\"Hi\"\x7d,\"finish_reason\":null\x7d]\x7d\ndata: [DONE]\n")])
      = ([⟨("r"), ("Hi"), false, none⟩, emptyTerminalChunk ("r")], none) := by
  decide

/-- The `[DONE]` sentinel is not valid JSON, so the frame parser rejects it
(the sentinel is recognised before parsing in `processSSEStream`). -/
theorem parse_done (requestId : String) :
    openaiParseStreamChunk ("[DONE]") requestId = none := rfl

/-- Claim C6: in a frame sequence with one malformed frame — JSON parse
failure or schema-validation failure, i.e. `parseStreamChunk` returns null —
between two valid content frames, the malformed frame is skipped and both
valid frames' chunks are still delivered; no error terminates the line
loop. -/
theorem malformed_frame_skipped (requestId l1 lm l2 : String)
    (c1 c2 : LLMStreamChunk)
    (h1p : strStartsWith (strTrim l1) ("data: ") = true)
    (h1 : openaiParseStreamChunk (strDrop (strTrim l1) 6) requestId = some c1)
    (h1c : c1.isComplete = false)
    (hmp : strStartsWith (strTrim lm) ("data: ") = true)
    (hmd : strDrop (strTrim lm) 6 ≠ ("[DONE]"))
    (hm : openaiParseStreamChunk (strDrop (strTrim lm) 6) requestId = none)
    (h2p : strStartsWith (strTrim l2) ("data: ") = true)
    (h2 : openaiParseStreamChunk (strDrop (strTrim l2) 6) requestId = some c2) :
    (openaiProcessLineList requestId [l1, lm, l2]).1 = [c1, c2] := by
  have h1d : strDrop (strTrim l1) 6 ≠ ("[DONE]") := by
    intro he
    rw [he, parse_done] at h1
    exact Option.noConfusion h1
  have h2d : strDrop (strTrim l2) 6 ≠ ("[DONE]") := by
    intro he
    rw [he, parse_done] at h2
    exact Option.noConfusion h2
  cases hc2 : c2.isComplete <;>
    simp [openaiProcessLineList, h1p, h1, h1c, hmp, hm, h2p, h2, h1d, hmd, h2d, hc2]

/-- Witness for claim C6: two full OpenAI content frames around a frame whose
payload is not JSON. -/
theorem malformed_frame_skipped_witness :
    (openaiProcessLineList ("r")
        [("data: \x7b\"id\":\"c1\",\"object\":\"chat.completion.chunk\",\"created\":1,\"model\":\"gpt-4o\",\"choices\":[\x7b\"index\":0,\"delta\":\x7b\"content\":\"Hi\"\x7d,\"finish_reason\":null\x7d]\x7d"),
         ("data: oops"),
         ("data: \x7b\"id\":\"c2\",\"object\":\"chat.completion.chunk\",\"created\":2,\"model\":\"gpt-4o\",\"choices\":[\x7b\"index\":0,\"delta\":\x7b\"content\":\"Yo\"\x7d,\"finish_reason\":null\x7d]\x7d")]).1
      = [⟨("r"), ("Hi"), false, none⟩, ⟨("r"), ("Yo"), false, none⟩] :=
  malformed_frame_skipped ("r")
    ("data: \x7b\"id\":\"c1\",\"object\":\"chat.completion.chunk\",\"created\":1,\"model\":\"gpt-4o\",\"choices\":[\x7b\"index\":0,\"delta\":\x7b\"content\":\"Hi\"\x7d,\"finish_reason\":null\x7d]\x7d")
    ("data: oops")
    ("data: \x7b\"id\":\"c2\",\"object\":\"chat.completion.chunk\",\"created\":2,\"model\":\"gpt-4o\",\"choices\":[\x7b\"index\":0,\"delta\":\x7b\"content\":\"Yo\"\x7d,\"finish_reason\":null\x7d]\x7d")
    ⟨("r"), ("Hi"), false, none⟩ ⟨("r"), ("Yo"), false, none⟩
    (by decide) (by decide) (by decide) (by decide) (by decide) (by decide)
    (by decide) (by decide)

/-- One completed acquire/release cycle at time `t0` on a clean window state
with `j` counted requests bumps the window counter and leaves no active
request. -/
theorem acquireRelease_step (cfg : RateLimitConfig) (t0 j : Int)
    (h0 : 0 ≤ t0) (hconc : 1 ≤ cfg.maxConcurrentRequests)
    (hj : j < cfg.maxRequestsPerMinute) :
    acquireRelease cfg t0
        { requestCount := j, lastResetTime := t0, activeRequests := 0, backoffUntil := 0 }
      = { requestCount := j + 1, lastResetTime := t0, activeRequests := 0, backoffUntil := 0 } := by
  unfold acquireRelease acquireRequest canMakeRequest resetIfNeeded isInBackoff releaseRequest
  simp [show ¬ ((60000 : Int) ≤ t0 - t0) by omega,
    show ¬ (t0 < (0 : Int)) by omega,
    show ¬ (cfg.maxConcurrentRequests ≤ (0 : Int)) by omega,
    show ¬ (cfg.maxRequestsPerMinute ≤ j) by omega]

/-- The state reached after `j` completed acquire/release cycles at time `t0`
from a fresh limiter. -/
theorem acquireRelease_iter (cfg : RateLimitConfig) (t0 : Int)
    (h0 : 0 ≤ t0) (hconc : 1 ≤ cfg.maxConcurrentRequests) :
    ∀ j : Nat, (j : Int) ≤ cfg.maxRequestsPerMinute →
      Nat.iterate (acquireRelease cfg t0) j (rateLimiterInit t0)
        = { requestCount := (j : Int), lastResetTime := t0
            activeRequests := 0, backoffUntil := 0 } := by
  intro j
  induction j with
  | zero =>
    intro _
    simp [rateLimiterInit]
  | succ n ih =>
    intro hj
    have hn : (n : Int) ≤ cfg.maxRequestsPerMinute := by push_cast at hj ⊢; omega
    have hlt : (n : Int) < cfg.maxRequestsPerMinute := by push_cast at hj; omega
    rw [Function.iterate_succ_apply', ih hn, acquireRelease_step cfg t0 n h0 hconc hlt]
    push_cast
    ring_nf

/-- Claim C3: from a fresh limiter, all `N = maxRequestsPerMinute`
acquire/release cycles at `t0` succeed; the `(N+1)`th acquire at any `t1`
still inside the 60-second window returns false; an acquire at any `t2` at or
past the window boundary returns true again. -/
theorem rateLimiter_window_ceiling (cfg : RateLimitConfig) (t0 t1 t2 : Int) (N : Nat)
    (hN : (N : Int) = cfg.maxRequestsPerMinute) (hNpos : 0 < N)
    (hconc : 1 ≤ cfg.maxConcurrentRequests)
    (h0 : 0 ≤ t0) (h01 : t0 ≤ t1) (hwin : t1 - t0 < 60000) (h2 : 60000 ≤ t2 - t0) :
    (∀ j : Nat, j < N →
      (acquireRequest cfg t0 (Nat.iterate (acquireRelease cfg t0) j (rateLimiterInit t0))).1
        = true) ∧
    (acquireRequest cfg t1 (Nat.iterate (acquireRelease cfg t0) N (rateLimiterInit t0))).1
      = false ∧
    (acquireRequest cfg t2 (Nat.iterate (acquireRelease cfg t0) N (rateLimiterInit t0))).1
      = true := by
  have hiterN := acquireRelease_iter cfg t0 h0 hconc N (le_of_eq hN)
  refine ⟨?_, ?_, ?_⟩
  · intro j hj
    have hje : (j : Int) ≤ cfg.maxRequestsPerMinute := by
      rw [← hN]; exact_mod_cast le_of_lt hj
    have hjlt : (j : Int) < cfg.maxRequestsPerMinute := by
      rw [← hN]; exact_mod_cast hj
    rw [acquireRelease_iter cfg t0 h0 hconc j hje]
    unfold acquireRequest canMakeRequest resetIfNeeded isInBackoff
    simp [show ¬ ((60000 : Int) ≤ t0 - t0) by omega,
      show ¬ (t0 < (0 : Int)) by omega,
      show ¬ (cfg.maxConcurrentRequests ≤ (0 : Int)) by omega,
      show ¬ (cfg.maxRequestsPerMinute ≤ (j : Int)) by omega]
  · rw [hiterN]
    unfold acquireRequest canMakeRequest resetIfNeeded isInBackoff
    simp [show ¬ ((60000 : Int) ≤ t1 - t0) by omega,
      show cfg.maxRequestsPerMinute ≤ (N : Int) by omega]
  · rw [hiterN]
    unfold acquireRequest canMakeRequest resetIfNeeded isInBackoff
    have hNi : (1 : Int) ≤ cfg.maxRequestsPerMinute := by
      rw [← hN]; exact_mod_cast hNpos
    simp [show (60000 : Int) ≤ t2 - t0 by omega,
      show ¬ (t2 < (0 : Int)) by omega,
      show ¬ (cfg.maxConcurrentRequests ≤ (0 : Int)) by omega,
      show ¬ (cfg.maxRequestsPerMinute ≤ (0 : Int)) by omega]

/-- Witness for claim C3 with a three-per-minute ceiling: the fourth acquire
inside the window fails, an acquire at the window boundary succeeds. -/
theorem rateLimiter_window_ceiling_witness :
    ((acquireRequest ⟨3, 5, 2, 30000, 3⟩ 0
        (Nat.iterate (acquireRelease ⟨3, 5, 2, 30000, 3⟩ 0) 2 (rateLimiterInit 0))).1 = true) ∧
    ((acquireRequest ⟨3, 5, 2, 30000, 3⟩ 30000
        (Nat.iterate (acquireRelease ⟨3, 5, 2, 30000, 3⟩ 0) 3 (rateLimiterInit 0))).1 = false) ∧
    ((acquireRequest ⟨3, 5, 2, 30000, 3⟩ 60000
        (Nat.iterate (acquireRelease ⟨3, 5, 2, 30000, 3⟩ 0) 3 (rateLimiterInit 0))).1 = true) := by
  have h := rateLimiter_window_ceiling ⟨3, 5, 2, 30000, 3⟩ 0 30000 60000 3
    (by decide) (by decide) (by decide) (by decide) (by decide) (by decide) (by decide)
  exact ⟨h.1 2 (by decide), h.2.1, h.2.2⟩

/-- Prepending a non-terminal chunk preserves the terminal-only-last shape. -/
theorem untilTerminal_cons (c : LLMStreamChunk) (l : List LLMStreamChunk)
    (hc : c.isComplete = false) (hl : untilTerminal l = true) :
    untilTerminal (c :: l) = true := by
  cases l with
  | nil => rfl
  | cons d ds => simp [untilTerminal, hc, hl]

/-- A terminal-free prefix before a terminal-only-last sequence keeps the
shape. -/
theorem untilTerminal_append (a b : List LLMStreamChunk)
    (ha : noTerminal a = true) (hb : untilTerminal b = true) :
    untilTerminal (a ++ b) = true := by
  induction a with
  | nil => simpa using hb
  | cons c rest ih =>
    simp only [noTerminal, List.all_cons, Bool.and_eq_true, Bool.not_eq_true'] at ha
    exact untilTerminal_cons c (rest ++ b) ha.1 (ih (by simp [noTerminal, ha.2]))

/-- Terminal-freeness is preserved by concatenation. -/
theorem noTerminal_append (a b : List LLMStreamChunk)
    (ha : noTerminal a = true) (hb : noTerminal b = true) :
    noTerminal (a ++ b) = true := by
  simp only [noTerminal, List.all_append, Bool.and_eq_true]
  exact ⟨ha, hb⟩

/-- In the line loop of the OpenAI stream processor, a terminal chunk can
only be the last chunk yielded, and if the loop did not return early then no
terminal chunk was yielded at all. -/
theorem processLineList_untilTerminal (requestId : String) :
    ∀ lines : List String,
      untilTerminal (openaiProcessLineList requestId lines).1 = true ∧
      ((openaiProcessLineList requestId lines).2 = false →
        noTerminal (openaiProcessLineList requestId lines).1 = true) := by
  intro lines
  induction lines with
  | nil => exact ⟨rfl, fun _ => rfl⟩
  | cons line rest ih =>
    by_cases hp : strStartsWith (strTrim line) ("data: ") = true
    · by_cases hd : strDrop (strTrim line) 6 = ("[DONE]")
      · constructor
        · simp [openaiProcessLineList, hp, hd, untilTerminal]
        · intro hfalse
          simp [openaiProcessLineList, hp, hd] at hfalse
      · cases hchunk : openaiParseStreamChunk (strDrop (strTrim line) 6) requestId with
        | none => simpa [openaiProcessLineList, hp, hd, hchunk] using ih
        | some c =>
          by_cases hc : c.isComplete = true
          · constructor
            · simp [openaiProcessLineList, hp, hd, hchunk, hc, untilTerminal]
            · intro hfalse
              simp [openaiProcessLineList, hp, hd, hchunk, hc] at hfalse
          · have hc' : c.isComplete = false := by simpa using hc
            obtain ⟨ih1, ih2⟩ := ih
            constructor
            · simpa [openaiProcessLineList, hp, hd, hchunk, hc'] using
                untilTerminal_cons c (openaiProcessLineList requestId rest).1 hc' ih1
            · intro hstop
              have hstop' : (openaiProcessLineList requestId rest).2 = false := by
                simpa [openaiProcessLineList, hp, hd, hchunk, hc'] using hstop
              have hr := ih2 hstop'
              simp only [noTerminal] at hr
              simp [openaiProcessLineList, hp, hd, hchunk, hc', noTerminal, hr]
    · simpa [openaiProcessLineList, hp] using ih

/-- Across reads of the OpenAI stream processor, a terminal chunk can only be
the last chunk yielded, and when a terminal error is thrown no terminal chunk
was yielded before it. -/
theorem processSegs_untilTerminal (requestId : String) :
    ∀ (events : List ReadEvent) (buffer : String),
      untilTerminal (openaiProcessSegs requestId buffer events).1 = true ∧
      ((openaiProcessSegs requestId buffer events).2.isSome = true →
        noTerminal (openaiProcessSegs requestId buffer events).1 = true) := by
  intro events
  induction events with
  | nil => exact fun _ => ⟨rfl, fun _ => rfl⟩
  | cons ev rest ih =>
    intro buffer
    cases ev with
    | fault msg => exact ⟨rfl, fun _ => rfl⟩
    | segment seg =>
      have hline := processLineList_untilTerminal requestId
        (splitLines (String.mk (buffer.data ++ seg.data))).dropLast
      by_cases hstop :
          (openaiProcessLineList requestId
            (splitLines (String.mk (buffer.data ++ seg.data))).dropLast).2 = true
      · constructor
        · simpa [openaiProcessSegs, hstop] using hline.1
        · intro hsome
          simp [openaiProcessSegs, hstop] at hsome
      · have hstop' :
            (openaiProcessLineList requestId
              (splitLines (String.mk (buffer.data ++ seg.data))).dropLast).2 = false := by
          simpa using hstop
        have hnt := hline.2 hstop'
        have ihb := ih ((splitLines (String.mk (buffer.data ++ seg.data))).getLast?.getD (""))
        constructor
        · simpa [openaiProcessSegs, hstop'] using
            untilTerminal_append _ _ hnt ihb.1
        · intro hsome
          simp only [openaiProcessSegs, hstop', Bool.false_eq_true, if_false] at hsome ⊢
          exact noTerminal_append _ _ hnt (ihb.2 hsome)

/-- Through the manager's consumption loop, a terminal chunk can only be the
final forwarded chunk, and when the loop rethrows a provider error no
terminal chunk was forwarded before it. -/
theorem managerLoop_untilTerminal (requestId : String) (cancelAt : Option Nat) :
    ∀ (chunks : List LLMStreamChunk) (err : Option LLMError) (i : Nat),
      untilTerminal chunks = true →
      (err.isSome = true → noTerminal chunks = true) →
      untilTerminal (managerLoop requestId cancelAt i chunks err).1 = true ∧
      ((managerLoop requestId cancelAt i chunks err).2.isSome = true →
        noTerminal (managerLoop requestId cancelAt i chunks err).1 = true) := by
  intro chunks
  induction chunks with
  | nil =>
    intro err i _ h2
    exact ⟨rfl, fun _ => rfl⟩
  | cons c rest ih =>
    intro err i h1 h2
    by_cases hab : abortedAt cancelAt i = true
    · constructor
      · simp [managerLoop, hab, untilTerminal]
      · intro hsome
        simp [managerLoop, hab] at hsome
    · have hab' : abortedAt cancelAt i = false := by simpa using hab
      cases rest with
      | nil =>
        constructor
        · simp [managerLoop, hab', untilTerminal]
        · intro hsome
          simp only [managerLoop, hab', Bool.false_eq_true, if_false] at hsome ⊢
          have : noTerminal [c] = true := h2 (by simpa using hsome)
          simpa [noTerminal, managerLoop] using this
      | cons d ds =>
        simp only [untilTerminal, Bool.and_eq_true, Bool.not_eq_true'] at h1
        have h2' : err.isSome = true → noTerminal (d :: ds) = true := by
          intro hs
          have := h2 hs
          simp only [noTerminal, List.all_cons, Bool.and_eq_true] at this
          simpa [noTerminal] using this.2
        have ihr := ih err (i + 1) h1.2 h2'
        constructor
        · simpa [managerLoop, hab'] using
            untilTerminal_cons c (managerLoop requestId cancelAt (i + 1) (d :: ds) err).1
              h1.1 ihr.1
        · intro hsome
          simp only [managerLoop, hab', Bool.false_eq_true, if_false] at hsome ⊢
          simp only [noTerminal, List.all_cons, Bool.and_eq_true, Bool.not_eq_true']
          refine ⟨h1.1, ?_⟩
          have := ihr.2 (by simpa using hsome)
          simpa [noTerminal] using this

/-- A terminal-only-last sequence has at most one terminal chunk, and every
chunk before the final position is non-terminal. -/
theorem untilTerminal_countP (l : List LLMStreamChunk) (h : untilTerminal l = true) :
    l.countP (fun c => c.isComplete) ≤ 1 ∧ ∀ c ∈ l.dropLast, c.isComplete = false := by
  induction l with
  | nil => exact ⟨by simp, by simp⟩
  | cons c rest ih =>
    cases rest with
    | nil =>
      constructor
      · simp [List.countP_cons]
        cases hc : c.isComplete <;> simp
      · simp
    | cons d ds =>
      simp only [untilTerminal, Bool.and_eq_true, Bool.not_eq_true'] at h
      obtain ⟨ih1, ih2⟩ := ih h.2
      constructor
      · simpa [List.countP_cons, h.1] using ih1
      · intro x hx
        rw [List.dropLast_cons₂] at hx
        rcases List.mem_cons.mp hx with hxc | hxr
        · exact hxc ▸ h.1
        · exact ih2 x hxr

/-- Claim C1, counterexample: with a configuration the OpenAI `validateConfig`
accepts, a response body that closes without any termination signal makes
`sendStreamingRequest` end after zero terminal chunks and with no thrown
error — neither of the claimed outcomes (exactly one terminal chunk, or a
thrown terminal error) occurs. -/
theorem sendStreaming_zero_terminal_counterexample :
    openaiValidateConfig cfgA = true ∧
    sendStreamingRequestOpenAI cfgA ("r") (some []) none = ([], none) ∧
    (sendStreamingRequestOpenAI cfgA ("r") (some []) none).1.countP
        (fun c => c.isComplete) = 0 := by
  refine ⟨by decide, by decide, by decide⟩

/-- Claim C1, amended: for every accepted configuration, response body and
cancellation time, the chunk sequence of `sendStreamingRequest` contains at
most one terminal chunk, a terminal chunk occurs only as the final element,
and when a terminal error is thrown no terminal chunk was yielded before it —
but a body that ends without a termination signal yields zero terminal chunks
with no error, so exactly-one does not hold in general. -/
theorem sendStreaming_terminal_at_most_one (cfg : LLMConfig) (requestId : String)
    (body : Option (List ReadEvent)) (cancelAt : Option Nat)
    (hcfg : openaiValidateConfig cfg = true) :
    untilTerminal (sendStreamingRequestOpenAI cfg requestId body cancelAt).1 = true ∧
    (sendStreamingRequestOpenAI cfg requestId body cancelAt).1.countP
        (fun c => c.isComplete) ≤ 1 ∧
    (∀ c ∈ (sendStreamingRequestOpenAI cfg requestId body cancelAt).1.dropLast,
        c.isComplete = false) ∧
    ((sendStreamingRequestOpenAI cfg requestId body cancelAt).2.isSome = true →
      noTerminal (sendStreamingRequestOpenAI cfg requestId body cancelAt).1 = true) := by
  have hps : untilTerminal (openaiProcessSSEStream requestId body).1 = true ∧
      ((openaiProcessSSEStream requestId body).2.isSome = true →
        noTerminal (openaiProcessSSEStream requestId body).1 = true) := by
    cases body with
    | none => exact ⟨rfl, fun _ => rfl⟩
    | some events => exact processSegs_untilTerminal requestId events ("")
  have hml := managerLoop_untilTerminal requestId cancelAt
    (openaiProcessSSEStream requestId body).1 (openaiProcessSSEStream requestId body).2 0
    hps.1 hps.2
  have hsend : sendStreamingRequestOpenAI cfg requestId body cancelAt
      = managerLoop requestId cancelAt 0
          (openaiProcessSSEStream requestId body).1
          (openaiProcessSSEStream requestId body).2 := by
    simp [sendStreamingRequestOpenAI, hcfg]
  rw [hsend]
  exact ⟨hml.1, (untilTerminal_countP _ hml.1).1, (untilTerminal_countP _ hml.1).2, hml.2⟩

/-- Witness for the amended claim C1 on a body carrying only the `[DONE]`
sentinel. -/
theorem sendStreaming_terminal_at_most_one_witness :
    (sendStreamingRequestOpenAI cfgA ("r")
        (some [ReadEvent.segment ("data: [DONE]\n")]) none).1.countP
        (fun c => c.isComplete) ≤ 1 :=
  (sendStreaming_terminal_at_most_one cfgA ("r")
      (some [ReadEvent.segment ("data: [DONE]\n")]) none (by decide)).2.1

end Juxtaprompt
